import Mathlib

/-!
Verification of the chat orchestration core of the Andy-AI repository.

The development shallowly embeds the TypeScript sources that the claims
reference:

* `src/shared/utils/retry.ts`        → `retryRunAux`, `retryRun`, `retry`
* `src/shared/utils/cache.ts`        → `Cache`, `Cache.get`, `Cache.set`
* the `RateLimiter` utility          → `RateLimiter.checkLimit`
* the `Timeout` utility              → see `timeoutWrapTypeError` (the class
                                        defines only `delay`; it has no `wrap`)
* `src/core/chat/services/chat.service.ts`
                                     → `calculateTechnicalScore`,
                                       `evaluateContextComplexity`,
                                       `determineAIModel`, `updateContext`,
                                       `persistContext`, `processMessage`

Conventions: JavaScript time (`Date.now()`) is modelled as a `Nat` number of
milliseconds passed explicitly; a synchronous JavaScript computation that can
throw is modelled as `Except`; a settled promise is modelled as an `Except`
value that the event loop would deliver on `await`.  JavaScript `Map` objects
are modelled as association lists in insertion order.
-/

/-! ## JavaScript string primitives

The embedding works on `List Char` with structural recursion so that every
definition evaluates inside the kernel.  `String` literals enter through
`String.data`. -/

/-- ASCII lower-casing of one character, the behaviour of
`String.prototype.toLowerCase` on the ASCII range (all strings appearing in
the claims are ASCII). -/
def jsLowerChar (c : Char) : Char :=
  if 'A' ≤ c ∧ c ≤ 'Z' then Char.ofNat (c.toNat + 32) else c

/-- `message.toLowerCase()` on the character list of an ASCII string. -/
def jsToLower (s : List Char) : List Char :=
  s.map jsLowerChar

/-- Helper for `jsSplitSpace`: splits at every separator occurrence, keeping
empty pieces, exactly like `String.prototype.split(' ')`. -/
def splitCharAux (sep : Char) : List Char → List Char → List (List Char)
  | [], acc => [acc.reverse]
  | c :: rest, acc =>
      if c = sep then acc.reverse :: splitCharAux sep rest []
      else splitCharAux sep rest (c :: acc)

/-- `message.split(' ')`: JavaScript splits on each single space and keeps
empty fragments; `"".split(' ')` is `[""]`. -/
def jsSplitSpace (s : String) : List (List Char) :=
  splitCharAux ' ' s.data []

/-- Does `l` start with `p`? -/
def charListStartsWith : List Char → List Char → Bool
  | [], _ => true
  | _ :: _, [] => false
  | p :: ps, c :: cs => p = c && charListStartsWith ps cs

/-- Contiguous-substring test on character lists, the behaviour of
`String.prototype.includes`. -/
def charListContains (needle : List Char) : List Char → Bool
  | [] => charListStartsWith needle []
  | c :: cs => charListStartsWith needle (c :: cs) || charListContains needle cs

/-- `haystack.includes(needle)` for strings. -/
def jsIncludes (haystack needle : String) : Bool :=
  charListContains needle.data haystack.data

/-! ## Errors

`src/shared/utils/error-handler.ts` defines
`class AppError extends Error { code; message; status = 500 }`. -/

/-- The `AppError` class: machine-readable code, human-readable message and a
numeric status (default `500`; every construction in the chat service uses the
default). -/
structure AppError where
  code : String
  message : String
  status : Nat
deriving DecidableEq, Repr

/-- A thrown JavaScript value as observed by a `catch` block: either an
`Error` instance carrying a `.message`, or some other value. -/
inductive JsError where
  | error (message : String)
  | nonError
deriving DecidableEq, Repr

/-- `error instanceof Error ? error.message : 'Unknown error'`, the expression
used by the `catch` blocks of `chat.service.ts`. -/
def jsErrorMessage : JsError → String
  | JsError.error m => m
  | JsError.nonError => "Unknown error"

/-! ## Chat data model (src/core/chat/interfaces/chat.types.ts and the
objects built by chat.service.ts)

`confidence` values are JavaScript numbers; the only ones the service creates
are `0.9` and `0.7`, modelled exactly in `ℚ`. -/

/-- One entry of `ChatResponse.actions`, produced by `extractActions`. -/
structure ChatAction where
  type : String
  payload : String
deriving DecidableEq, Repr

/-- The structured response of the orchestrator (`content`, `source`,
`actions`, and an optional `confidence` — GPT-4 responses carry none). -/
structure ChatResponse where
  content : String
  source : String
  actions : List ChatAction
  confidence : Option ℚ
deriving DecidableEq, Repr

/-- The metadata `updateContext` attaches to the appended assistant message:
the response's confidence and source, and the processing time (`Date.now() -
timestamp`, which is `0` in this single-instant model of one update). -/
structure MsgMetadata where
  confidence : Option ℚ
  source : String
  processingTime : Nat
deriving DecidableEq, Repr

/-- A conversation-history message as built by `updateContext`: user messages
carry no metadata, assistant messages do. -/
structure Message where
  role : String
  content : String
  timestamp : Nat
  metadata : Option MsgMetadata
deriving DecidableEq, Repr

/-- The `metrics` sub-object of a stored context. -/
structure Metrics where
  totalInteractions : Nat
  lastUpdateTime : Nat
deriving DecidableEq, Repr

/-- The per-user context object stored in `ChatService.currentContext`
(shape of the `contextUpdate` object literal in `updateContext`). -/
structure Ctx where
  lastMessage : String
  lastResponse : ChatResponse
  timestamp : Nat
  conversationHistory : List Message
  metrics : Metrics
deriving DecidableEq, Repr

/-! ## `retry` (src/shared/utils/retry.ts)

```
export function retry(fn: Function, attempts = 3) {
  let lastError;
  for (let i = 0; i < attempts; i++) {
    try {
      return fn();
    } catch (error) {
      lastError = error;
    }
  }
  throw lastError;
}
```

The function is synchronous: `return fn()` returns whatever `fn` returns, and
the `try`/`catch` only observes synchronous throws.  The `i`-th invocation of
`fn` is modelled as `fn i : Except ε α` (`.error e` = the call throws `e`,
`.ok v` = the call returns `v`; for an `async` operation the returned value is
a promise and the call never throws).  The embedding also counts how many
times `fn` was invoked. -/

deriving instance DecidableEq for Except

/-- The loop of `retry`: remaining iterations, number of calls made so far,
and the current `lastError` (initially `undefined`, hence `Option`).  Returns
the result (`.error lastError` models the final `throw lastError`) together
with the total number of invocations of `fn`. -/
def retryRunAux {ε α : Type} (fn : Nat → Except ε α) :
    Nat → Nat → Option ε → Except (Option ε) α × Nat
  | 0, calls, lastError => (Except.error lastError, calls)
  | n + 1, calls, _ =>
      match fn calls with
      | Except.ok v => (Except.ok v, calls + 1)
      | Except.error e => retryRunAux fn n (calls + 1) (some e)

/-- `retry(fn, attempts)` together with the number of invocations of `fn`. -/
def retryRun {ε α : Type} (fn : Nat → Except ε α) (attempts : Nat) :
    Except (Option ε) α × Nat :=
  retryRunAux fn attempts 0 none

/-- `retry(fn, attempts)` (the declared default for `attempts` is `3`). -/
def retry {ε α : Type} (fn : Nat → Except ε α) (attempts : Nat) :
    Except (Option ε) α :=
  (retryRun fn attempts).1

/-- `ChatService.MAX_RETRIES`. -/
def MAX_RETRIES : Nat := 3

/-- `ChatService.TIMEOUT_MS`. -/
def TIMEOUT_MS : Nat := 30000

/-! ## `retry` applied to an asynchronous operation (claim C6)

`ChatService.getAIResponseWithRetry` passes the `async` arrow function
`() => this.getAIResponse(...)` to `retry`.  Calling an `async` function never
throws synchronously — it returns a promise — so the `i`-th invocation is
`Except.ok (p i)` where `p i` is the state the `i`-th promise eventually
settles to (`.ok` a `ChatResponse`, `.error` a rejection reason). -/

/-- A call of an `async` operation: it returns the `i`-th promise and never
throws synchronously. -/
def asyncCall {ε ρ β : Type} (p : Nat → Except ρ β) :
    Nat → Except ε (Except ρ β) :=
  fun i => Except.ok (p i)

/-- `ChatService.getAIResponseWithRetry`:
`retry(() => this.getAIResponse(message, ...), this.MAX_RETRIES)`, with the
provider promises abstracted as `p` and invocations counted.  The thrown-value
type at this call site is `JsError`. -/
def getAIResponseWithRetry (p : Nat → Except String ChatResponse) :
    Except (Option JsError) (Except String ChatResponse) × Nat :=
  retryRun (asyncCall p : Nat → Except JsError (Except String ChatResponse))
    MAX_RETRIES

/-! ## Rate limiter (the `RateLimiter` utility)

```
export class RateLimiter {
  private requests: number = 0;
  private lastReset: number = Date.now();
  ...
  async checkLimit(): Promise<boolean> {
    const now = Date.now();
    if (now - this.lastReset >= this.resetInterval) {
      this.requests = 0;
      this.lastReset = now;
    }
    if (this.requests >= this.maxRequests) {
      return false;
    }
    this.requests++;
    return true;
  }
}
```
-/

/-- Constructor options of `RateLimiter`; the constructor computes
`resetInterval = perMinute * 60 * 1000`. -/
structure RateLimiterOptions where
  maxRequests : Nat
  perMinute : Nat
deriving DecidableEq, Repr

/-- The interval computed by the `RateLimiter` constructor. -/
def RateLimiter.resetInterval (opts : RateLimiterOptions) : Nat :=
  opts.perMinute * 60 * 1000

/-- The mutable fields of a `RateLimiter` instance. -/
structure RateLimiterState where
  requests : Nat
  lastReset : Nat
deriving DecidableEq, Repr

/-- `RateLimiter.checkLimit` at time `now`: reset the window if it has fully
elapsed, then deny without incrementing when the count has reached
`maxRequests`, otherwise increment and allow.  Returns the boolean together
with the successor state. -/
def RateLimiter.checkLimit (opts : RateLimiterOptions)
    (st : RateLimiterState) (now : Nat) : Bool × RateLimiterState :=
  let st1 := if now - st.lastReset ≥ RateLimiter.resetInterval opts then
      { requests := 0, lastReset := now } else st
  if st1.requests ≥ opts.maxRequests then
    (false, st1)
  else
    (true, { st1 with requests := st1.requests + 1 })

/-! ## JavaScript `Map` semantics

A `Map` keeps entries in insertion order; `set` of an existing key updates the
value in place, `set` of a new key appends, `delete` removes the entry, and
`keys().next().value` is the structurally first key. -/

/-- `map.get(k)`. -/
def jsMapGet {K V : Type} [DecidableEq K] : List (K × V) → K → Option V
  | [], _ => none
  | (k', v') :: t, k => if k' = k then some v' else jsMapGet t k

/-- `map.set(k, v)`: update in place if the key exists, otherwise append. -/
def jsMapSet {K V : Type} [DecidableEq K] : List (K × V) → K → V → List (K × V)
  | [], k, v => [(k, v)]
  | (k', v') :: t, k, v =>
      if k' = k then (k, v) :: t else (k', v') :: jsMapSet t k v

/-- `map.delete(k)` (a `Map` holds each key at most once, so removing the
first occurrence is exact). -/
def jsMapDelete {K V : Type} [DecidableEq K] : List (K × V) → K → List (K × V)
  | [], _ => []
  | (k', v') :: t, k => if k' = k then t else (k', v') :: jsMapDelete t k

/-! ## TTL cache (src/shared/utils/cache.ts) -/

/-- A stored cache entry: `{ value, timestamp: Date.now() }`. -/
structure CacheEntry (V : Type) where
  value : V
  timestamp : Nat
deriving DecidableEq, Repr

/-- The `Cache` class: an insertion-ordered map plus the constructor
parameters `maxSize` and `ttl`. -/
structure Cache (K V : Type) where
  entries : List (K × CacheEntry V)
  maxSize : Nat
  ttl : Nat
deriving DecidableEq, Repr

/-- A freshly constructed cache. -/
def Cache.empty {K V : Type} (maxSize ttl : Nat) : Cache K V :=
  { entries := [], maxSize := maxSize, ttl := ttl }

/-- `Cache.get` at time `now`: absent keys return `null`; an entry older than
`ttl` is deleted and reported absent (lazy expiration).  Returns the value
(if visible) together with the possibly mutated cache. -/
def Cache.get {K V : Type} [DecidableEq K] (c : Cache K V) (k : K)
    (now : Nat) : Option V × Cache K V :=
  match jsMapGet c.entries k with
  | none => (none, c)
  | some item =>
      if now - item.timestamp > c.ttl then
        (none, { c with entries := jsMapDelete c.entries k })
      else
        (some item.value, c)

/-- `Cache.set` at time `now`: when `size >= maxSize` it deletes the entry
under `keys().next().value` — the structurally first key — and then inserts
(on an empty over-capacity map the first key is `undefined` and the delete
removes nothing). -/
def Cache.set {K V : Type} [DecidableEq K] (c : Cache K V) (k : K) (v : V)
    (now : Nat) : Cache K V :=
  let entries :=
    if c.entries.length ≥ c.maxSize then
      match c.entries with
      | [] => c.entries
      | (k0, _) :: _ => jsMapDelete c.entries k0
    else c.entries
  { c with entries := jsMapSet entries k ⟨v, now⟩ }

/-- `Cache.clear`. -/
def Cache.clear {K V : Type} (c : Cache K V) : Cache K V :=
  { c with entries := [] }

/-- Inserting a sequence of keys, all with value `v` at time `now` (the shape
of the spec's capacity test). -/
def Cache.insertSeq {K V : Type} [DecidableEq K] (c : Cache K V)
    (ks : List K) (v : V) (now : Nat) : Cache K V :=
  ks.foldl (fun c k => c.set k v now) c

/-! ## Model router (chat.service.ts: `determineAIModel`,
`calculateTechnicalScore`, `evaluateContextComplexity`) -/

/-- The fixed technical-keyword vocabulary of `calculateTechnicalScore`. -/
def technicalKeywords : List String :=
  ["tax", "impuestos", "w2", "1099", "deduction", "credit", "calculation",
   "analysis", "report", "form"]

/-- `message.split(' ').length`. -/
def wordCount (message : String) : Nat :=
  (jsSplitSpace message).length

/-- `technicalKeywords.filter(k => message.toLowerCase().includes(k)).length`. -/
def technicalWordCount (message : String) : Nat :=
  (technicalKeywords.filter
    (fun keyword => charListContains keyword.data (jsToLower message.data))).length

/-- `calculateTechnicalScore`: matched-keyword count divided by word count
(JavaScript number division, exact on these operands, modelled in `ℚ`). -/
def calculateTechnicalScore (message : String) : ℚ :=
  (technicalWordCount message : ℚ) / (wordCount message : ℚ)

/-- JavaScript `string.length` (UTF-16 code units; identical to the character
count on the ASCII strings this model handles). -/
def jsStringLength (s : String) : Nat :=
  s.data.length

/-- `evaluateContextComplexity`: `Math.min(JSON.stringify(context).length /
1000, 1)`, taking the already-serialized context string. -/
def evaluateContextComplexity (contextString : String) : ℚ :=
  min ((jsStringLength contextString : ℚ) / 1000) 1

/-- `determineAIModel`: `'claude'` when `technicalScore > 0.7 ||
contextComplexity > 0.8`, otherwise `'gpt4'`. -/
def determineAIModel (message : String) (contextString : String) : String :=
  if calculateTechnicalScore message > 7/10 ∨
      evaluateContextComplexity contextString > 4/5 then
    "claude"
  else
    "gpt4"

/-! ## `JSON.stringify` model

`evaluateContextComplexity` consumes only the length of the serialized
context.  The serializer below renders the context-object shape the service
stores (property insertion order, `undefined`-valued properties omitted,
ASCII strings without escapes, and the numeric formats the service actually
produces — naturals, and confidences with denominator 1 or 10).  Every settled
claim touches it only through the empty context, which serializes to the
two-character string rendered by `jsonOfContext none`. -/

/-- Decimal digits of `n` (structural fuel recursion so that the kernel can
evaluate it; the fuel `n + 1` always suffices). -/
def natReprAux : Nat → Nat → List Char
  | 0, _ => []
  | fuel + 1, n =>
      if n < 10 then [Char.ofNat (48 + n)]
      else natReprAux fuel (n / 10) ++ [Char.ofNat (48 + n % 10)]

/-- Decimal rendering of a natural number. -/
def natRepr (n : Nat) : String :=
  ⟨natReprAux (n + 1) n⟩

/-- JSON rendering of the non-negative numbers the service stores (exact for
denominators 1 and 10, the only ones it creates: `0.9` and `0.7`). -/
def jnum (q : ℚ) : String :=
  if q.den = 1 then natRepr q.num.toNat
  else natRepr (q.num.toNat / q.den) ++ "." ++
    natRepr (q.num.toNat % q.den * 10 / q.den)

/-- A JSON string literal (no escapes needed for the modelled ASCII data). -/
def jstr (s : String) : String :=
  "\"" ++ s ++ "\""

/-- A JSON object from already-rendered `"name":value` fields. -/
def jobj (fields : List String) : String :=
  "\x7b" ++ String.intercalate "," fields ++ "\x7d"

/-- A JSON array from already-rendered items. -/
def jarr (items : List String) : String :=
  "[" ++ String.intercalate "," items ++ "]"

/-- One `"name":value` field. -/
def jfield (name value : String) : String :=
  jstr name ++ ":" ++ value

/-- JSON of one extracted action. -/
def jsonOfAction (a : ChatAction) : String :=
  jobj [jfield "type" (jstr a.type), jfield "payload" (jstr a.payload)]

/-- JSON of a `ChatResponse` (no `confidence` property on GPT-4 responses). -/
def jsonOfResponse (r : ChatResponse) : String :=
  jobj ([jfield "content" (jstr r.content), jfield "source" (jstr r.source),
    jfield "actions" (jarr (r.actions.map jsonOfAction))] ++
    match r.confidence with
    | some q => [jfield "confidence" (jnum q)]
    | none => [])

/-- JSON of message metadata (an `undefined` confidence is omitted). -/
def jsonOfMetadata (m : MsgMetadata) : String :=
  jobj ((match m.confidence with
    | some q => [jfield "confidence" (jnum q)]
    | none => []) ++
    [jfield "source" (jstr m.source),
     jfield "processingTime" (natRepr m.processingTime)])

/-- JSON of a history message. -/
def jsonOfMessage (m : Message) : String :=
  jobj ([jfield "role" (jstr m.role), jfield "content" (jstr m.content),
    jfield "timestamp" (natRepr m.timestamp)] ++
    match m.metadata with
    | some md => [jfield "metadata" (jsonOfMetadata md)]
    | none => [])

/-- JSON of the metrics sub-object. -/
def jsonOfMetrics (m : Metrics) : String :=
  jobj [jfield "totalInteractions" (natRepr m.totalInteractions),
    jfield "lastUpdateTime" (natRepr m.lastUpdateTime)]

/-- JSON of a stored context object. -/
def jsonOfCtx (c : Ctx) : String :=
  jobj [jfield "lastMessage" (jstr c.lastMessage),
    jfield "lastResponse" (jsonOfResponse c.lastResponse),
    jfield "timestamp" (natRepr c.timestamp),
    jfield "conversationHistory" (jarr (c.conversationHistory.map jsonOfMessage)),
    jfield "metrics" (jsonOfMetrics c.metrics)]

/-- `JSON.stringify(context)` where `getContext` produced either a stored
context or the empty default object. -/
def jsonOfContext : Option Ctx → String
  | none => jobj []
  | some c => jsonOfCtx c

/-! ## Context store (chat.service.ts: `getContext`, `updateContext`,
`persistContext`) -/

/-- `this.currentContext.get(userId)`; the caller substitutes the empty
default (`|| {}`) where needed. -/
def getContext (contexts : List (String × Ctx)) (userId : String) :
    Option Ctx :=
  jsMapGet contexts userId

/-- The local constant `maxHistoryLength = 50` of `updateContext`. -/
def maxHistoryLength : Nat := 50

/-- The error thrown by `updateContext`'s validation when `userId` or
`message` is empty. -/
def INVALID_CONTEXT_UPDATE : AppError :=
  { code := "INVALID_CONTEXT_UPDATE",
    message := "User ID and message are required", status := 500 }

/-- The error `updateContext`'s `catch` block rethrows in place of whatever
was caught. -/
def CONTEXT_UPDATE_ERROR : AppError :=
  { code := "CONTEXT_UPDATE_ERROR",
    message := "Failed to update conversation context", status := 500 }

/-- `persistContext`: the whole durable write sits in a `try` whose `catch`
logs a warning and deliberately does not rethrow ("No lanzar error para no
interrumpir la conversación"), so the function never throws, whatever the
write's outcome `w` (at runtime the write itself always fails, since the
function references `getFirestore`/`firebaseApp` that chat.service.ts never
imports — the resulting ReferenceError is likewise caught and logged). -/
def persistContext (w : Except String Unit) : Except AppError Unit :=
  Except.ok ()

/-- The body of `updateContext`'s `try` block: validate, build the new
history (`slice(-maxHistoryLength)` on the previous history, then append the
user and assistant messages), build `contextUpdate`, store it in the map, and
run the best-effort persistence.  The `i`-th new-history element order and
every field mirrors the object literals of the source; `w` is the outcome of
the durable write. -/
def updateContextBody (contexts : List (String × Ctx))
    (userId message : String) (response : ChatResponse) (now : Nat)
    (w : Except String Unit) : Except AppError (List (String × Ctx)) :=
  if userId = "" ∨ message = "" then
    Except.error INVALID_CONTEXT_UPDATE
  else
    let currentContext := jsMapGet contexts userId
    let timestamp := now
    let oldHistory := match currentContext with
      | some c => c.conversationHistory
      | none => []
    let newHistory :=
      oldHistory.drop (oldHistory.length - maxHistoryLength) ++
      [{ role := "user", content := message, timestamp := timestamp,
         metadata := none },
       { role := "assistant", content := response.content,
         timestamp := timestamp,
         metadata :=
           some ⟨response.confidence, response.source, 0⟩ }]
    let oldTotal := match currentContext with
      | some c => c.metrics.totalInteractions
      | none => 0
    let contextUpdate : Ctx :=
      { lastMessage := message, lastResponse := response,
        timestamp := timestamp, conversationHistory := newHistory,
        metrics := ⟨oldTotal + 1, timestamp⟩ }
    let contexts1 := jsMapSet contexts userId contextUpdate
    match persistContext w with
    | Except.ok _ => Except.ok contexts1
    | Except.error e => Except.error e

/-- `updateContext`: the `try` body above under the `catch` block, which logs
and throws `CONTEXT_UPDATE_ERROR` in place of any caught error.  Returns the
call's outcome together with the store; the only throw site precedes the map
mutation (`persistContext` never throws), so in the error case the store is
returned unchanged, exactly as in the source. -/
def updateContext (contexts : List (String × Ctx)) (userId message : String)
    (response : ChatResponse) (now : Nat) (w : Except String Unit) :
    Except AppError Unit × List (String × Ctx) :=
  match updateContextBody contexts userId message response now w with
  | Except.ok contexts1 => (Except.ok (), contexts1)
  | Except.error _ => (Except.error CONTEXT_UPDATE_ERROR, contexts)

/-- The conversation history stored for `userId` (empty when no context
exists yet). -/
def historyOf (contexts : List (String × Ctx)) (userId : String) :
    List Message :=
  match jsMapGet contexts userId with
  | some c => c.conversationHistory
  | none => []

/-- The stored interaction counter for `userId` (`0` when no context
exists). -/
def interactionsOf (contexts : List (String × Ctx)) (userId : String) : Nat :=
  match jsMapGet contexts userId with
  | some c => c.metrics.totalInteractions
  | none => 0

/-- A concrete response used by the concrete test scenarios. -/
def sampleResponse : ChatResponse :=
  { content := "ok", source := "claude", actions := [],
    confidence := some (mkRat 9 10) }

/-- The spec's sliding-window scenario: starting from an empty store, append
`n` message-pairs for user `"u1"` via `updateContext`, the `k`-th pair (from
1) at time `k`, all with a successful durable write. -/
def appendPairs (n : Nat) : List (String × Ctx) :=
  (List.range n).foldl
    (fun contexts k =>
      (updateContext contexts "u1" "hi" sampleResponse (k + 1)
        (Except.ok ())).2)
    []

/-! ## Chat orchestrator (chat.service.ts: `processMessage`)

```
async processMessage(userId, message, attachments?) {
  await this.rateLimiter.checkLimit(userId);          // boolean discarded
  const cacheKey = this.generateCacheKey(userId, message);
  const cachedResponse = this.cache.get(cacheKey);
  if (cachedResponse) return cachedResponse;
  try {
    const context = await this.getContext(userId);
    const modelType = await this.determineAIModel(message, context);
    ...
    const response = await Timeout.wrap(
      this.getAIResponseWithRetry(message, attachmentContext, context, modelType),
      this.TIMEOUT_MS);
    await this.updateContext(userId, message, response);
    this.cache.set(cacheKey, response);
    return response;
  } catch (error) { ...; throw new AppError('CHAT_ERROR',
    'Failed to process message: ' + (error instanceof Error ? error.message : 'Unknown error')); }
}
```

The `Timeout` class of the repository defines only the static method `delay`;
it has **no** member `wrap`.  Hence on the cache-miss path `Timeout.wrap` is
`undefined`: JavaScript evaluates the callee reference and the argument —
thereby starting `getAIResponseWithRetry`, whose `retry` of an `async`
operation invokes the provider exactly once (see `retry_async_invoked_once`)
— and then throws `TypeError: Timeout.wrap is not a function`, which the
`catch` block wraps into the `CHAT_ERROR` `AppError` below.  The promised
provider response is never awaited, `updateContext` and `cache.set` are never
reached.  Attachments are modelled as absent (`attachments?.length` is
`undefined`, so the attachment branch is skipped), matching every claim
scenario. -/

/-- `generateCacheKey(userId, message)` = `` `${userId}:${message}` ``. -/
def generateCacheKey (userId message : String) : String :=
  userId ++ ":" ++ message

/-- The `catch` block of `processMessage`: wraps whatever was thrown into
`new AppError('CHAT_ERROR', 'Failed to process message: ' + detail)`, where
`detail` is the caught error's own `.message` (the raw internal detail, also
logged). -/
def processMessageCatch (error : JsError) : AppError :=
  { code := "CHAT_ERROR",
    message := "Failed to process message: " ++ jsErrorMessage error,
    status := 500 }

/-- The error every cache-miss `processMessage` call surfaces: the `TypeError`
thrown by calling the undefined `Timeout.wrap`, wrapped by the `catch`
block. -/
def timeoutWrapTypeError : AppError :=
  processMessageCatch (JsError.error "Timeout.wrap is not a function")

/-- The mutable service state touched by `processMessage`: the rate limiter,
the response cache, and the per-user context map. -/
structure ServiceState where
  limiter : RateLimiterState
  cache : Cache String ChatResponse
  contexts : List (String × Ctx)
deriving DecidableEq, Repr

/-- Observable result of one `processMessage` call: the outcome, the successor
state, the (discarded) rate-limit boolean, and which pipeline stages ran. -/
structure ProcessResult where
  outcome : Except AppError ChatResponse
  limiter : RateLimiterState
  cache : Cache String ChatResponse
  contexts : List (String × Ctx)
  limitAllowed : Bool
  contextResolved : Bool
  routedModel : Option String
  providerInvocations : Nat
deriving DecidableEq, Repr

/-- One `processMessage(userId, message)` call at time `now`.  The rate-limit
boolean is computed and recorded but — exactly as in the source — never
consulted; on a cache hit the cached response returns immediately; on a miss
the context is resolved, the router runs, the provider call is started once,
and the call ends in the `CHAT_ERROR` wrapping of the `Timeout.wrap`
`TypeError`, leaving the context map untouched. -/
def processMessage (opts : RateLimiterOptions) (st : ServiceState)
    (now : Nat) (userId message : String) : ProcessResult :=
  let checked := RateLimiter.checkLimit opts st.limiter now
  let cacheKey := generateCacheKey userId message
  let got := Cache.get st.cache cacheKey now
  match got.1 with
  | some cached =>
      { outcome := Except.ok cached, limiter := checked.2, cache := got.2,
        contexts := st.contexts, limitAllowed := checked.1,
        contextResolved := false, routedModel := none,
        providerInvocations := 0 }
  | none =>
      let context := getContext st.contexts userId
      let modelType := determineAIModel message (jsonOfContext context)
      { outcome := Except.error timeoutWrapTypeError, limiter := checked.2,
        cache := got.2, contexts := st.contexts, limitAllowed := checked.1,
        contextResolved := true, routedModel := some modelType,
        providerInvocations := 1 }

/-- The rate-limiter configuration of the `ChatService` constructor:
`new RateLimiter({ maxRequests: 50, perMinute: 1 })`. -/
def chatOptions : RateLimiterOptions :=
  { maxRequests := 50, perMinute := 1 }

/-- A limiter state whose current window is exhausted (`requests` has reached
`chatOptions.maxRequests`). -/
def deniedLimiter : RateLimiterState :=
  { requests := 50, lastReset := 1000000 }

/-- A service whose cache (constructor parameters `maxSize: 1000`,
`ttl: 3600000`) and context store are empty, with the given limiter state. -/
def freshService (limiter : RateLimiterState) : ServiceState :=
  { limiter := limiter, cache := Cache.empty 1000 3600000, contexts := [] }


/-! # Theorems -/

/-! Helper lemmas about the retry loop. -/

lemma retryRunAux_all_errors {ε α : Type} (fn : Nat → Except ε α)
    (e : Nat → ε) :
    ∀ (n calls : Nat) (last : Option ε), 1 ≤ n →
      (∀ i, i < n → fn (calls + i) = Except.error (e (calls + i))) →
      retryRunAux fn n calls last =
        (Except.error (some (e (calls + n - 1))), calls + n) := by
  intro n
  induction n with
  | zero => intro calls last h; omega
  | succ m ih =>
      intro calls last _ hfail
      have h0 : fn calls = Except.error (e calls) := by
        have := hfail 0 (Nat.succ_pos m)
        simpa using this
      rcases Nat.eq_zero_or_pos m with hm | hm
      · subst hm
        simp [retryRunAux, h0]
      · have hstep : ∀ i, i < m →
            fn (calls + 1 + i) = Except.error (e (calls + 1 + i)) := by
          intro i hi
          have := hfail (i + 1) (by omega)
          have harith : calls + (i + 1) = calls + 1 + i := by omega
          rwa [harith] at this
        have := ih (calls + 1) (some (e calls)) hm hstep
        have harith1 : calls + 1 + m - 1 = calls + (m + 1) - 1 := by omega
        have harith2 : calls + 1 + m = calls + (m + 1) := by omega
        rw [harith1, harith2] at this
        simp [retryRunAux, h0, this]

lemma retryRunAux_first_ok {ε α : Type} (fn : Nat → Except ε α) (v : α) :
    ∀ (k n calls : Nat) (last : Option ε), k < n →
      fn (calls + k) = Except.ok v →
      (∀ i, i < k → (fn (calls + i)).isOk = false) →
      retryRunAux fn n calls last = (Except.ok v, calls + k + 1) := by
  intro k
  induction k with
  | zero =>
      intro n calls last hk hok _
      obtain ⟨m, rfl⟩ : ∃ m, n = m + 1 := ⟨n - 1, by omega⟩
      have h0 : fn calls = Except.ok v := by simpa using hok
      simp [retryRunAux, h0]
  | succ j ih =>
      intro n calls last hk hok hfail
      obtain ⟨m, rfl⟩ : ∃ m, n = m + 1 := ⟨n - 1, by omega⟩
      have h0 : (fn calls).isOk = false := by
        have := hfail 0 (Nat.succ_pos j)
        simpa using this
      obtain ⟨e0, he0⟩ : ∃ e0, fn calls = Except.error e0 := by
        cases hcase : fn calls with
        | ok w => rw [hcase] at h0; simp [Except.isOk, Except.toBool] at h0
        | error e0 => exact ⟨e0, rfl⟩
      have hok' : fn (calls + 1 + j) = Except.ok v := by
        have harith : calls + (j + 1) = calls + 1 + j := by omega
        rwa [harith] at hok
      have hfail' : ∀ i, i < j → (fn (calls + 1 + i)).isOk = false := by
        intro i hi
        have := hfail (i + 1) (by omega)
        have harith : calls + (i + 1) = calls + 1 + i := by omega
        rwa [harith] at this
      have := ih m (calls + 1) (some e0) (by omega) hok' hfail'
      have harith : calls + 1 + j + 1 = calls + (j + 1) + 1 := by omega
      rw [harith] at this
      simp [retryRunAux, he0, this]

/-- C5: for every operation and `attempts = n ≥ 1`, `retry` executes the
operation sequentially up to `n` times, returns the first successful result
(after `k` failures it has made exactly `k + 1` invocations), and when all `n`
attempts throw it makes exactly `n` invocations and re-raises the last error
observed.  In particular an always-failing operation under `retry(op, 3)` is
invoked exactly 3 times and the error thrown is the third invocation's error.
(The statement is about synchronous operations, the only ones whose throws the
`try`/`catch` of `retry` can observe; there is no delay anywhere in the
loop.) -/
theorem retry_sync_contract {ε α : Type} (fn : Nat → Except ε α) (n : Nat)
    (hn : 1 ≤ n) :
    (∀ e : Nat → ε, (∀ i, i < n → fn i = Except.error (e i)) →
        retryRun fn n = (Except.error (some (e (n - 1))), n)) ∧
    (∀ k v, k < n → fn k = Except.ok v →
        (∀ i, i < k → (fn i).isOk = false) →
        retryRun fn n = (Except.ok v, k + 1)) := by
  constructor
  · intro e hfail
    have := retryRunAux_all_errors fn e n 0 none hn (by simpa using hfail)
    simpa [retryRun] using this
  · intro k v hk hok hfail
    have := retryRunAux_first_ok fn v k n 0 none hk (by simpa using hok)
      (by simpa using hfail)
    simpa [retryRun] using this

/-- Witness for `retry_sync_contract`: the always-failing operation
`fun i => .error i` under 3 attempts is invoked exactly 3 times and throws the
last error `2`; an operation failing twice then returning `99` is invoked
exactly 3 times and returns `99`. -/
theorem retry_sync_contract_witness :
    retryRun (fun i => (Except.error i : Except Nat Nat)) 3 =
      (Except.error (some 2), 3) ∧
    retryRun (fun i => if i < 2 then (Except.error i : Except Nat Nat)
      else Except.ok 99) 3 = (Except.ok 99, 3) := by
  constructor
  · exact (retry_sync_contract (fun i => (Except.error i : Except Nat Nat)) 3
      (by decide)).1 (fun i => i) (fun i _ => rfl)
  · exact (retry_sync_contract
      (fun i => if i < 2 then (Except.error i : Except Nat Nat)
        else Except.ok 99) 3 (by decide)).2 2 99 (by decide) (by decide)
      (by decide)

/-- C6: the operation the orchestrator passes to `retry` is asynchronous, so
each invocation returns a promise and never throws synchronously; `retry`
therefore returns the first invocation's promise directly from inside the
loop: the operation is invoked exactly once regardless of `attempts`, and a
rejected promise (`p 0 = .error r`) is handed back unexamined, so the
rejection propagates to the caller.  In particular
`getAIResponseWithRetry` attempts the provider call exactly once even when
every promise rejects. -/
theorem retry_async_invoked_once {ε ρ β : Type} (p : Nat → Except ρ β)
    (attempts : Nat) (h : 1 ≤ attempts) :
    retryRun (asyncCall p : Nat → Except ε (Except ρ β)) attempts =
      (Except.ok (p 0), 1) ∧
    ∀ q : Nat → Except String ChatResponse,
      getAIResponseWithRetry q = (Except.ok (q 0), 1) := by
  constructor
  · obtain ⟨m, rfl⟩ : ∃ m, attempts = m + 1 := ⟨attempts - 1, by omega⟩
    simp [retryRun, retryRunAux, asyncCall]
  · intro q
    simp [getAIResponseWithRetry, MAX_RETRIES, retryRun, retryRunAux,
      asyncCall]

/-- Witness for `retry_async_invoked_once`: a provider whose promise always
rejects with `"ECONNRESET"` is attempted exactly once under
`getAIResponseWithRetry`, and the caller receives the first rejected
promise. -/
theorem retry_async_invoked_once_witness :
    getAIResponseWithRetry (fun _ => Except.error "ECONNRESET") =
      (Except.ok (Except.error "ECONNRESET"), 1) :=
  (@retry_async_invoked_once JsError String ChatResponse
      (fun _ => Except.error "ECONNRESET") 3 (by decide)).2
    (fun _ => Except.error "ECONNRESET")

/-! Helper lemmas about the JavaScript map model. -/

lemma jsMapGet_jsMapSet_self {K V : Type} [DecidableEq K]
    (l : List (K × V)) (k : K) (v : V) :
    jsMapGet (jsMapSet l k v) k = some v := by
  induction l with
  | nil => simp [jsMapSet, jsMapGet]
  | cons p t ih =>
      obtain ⟨k', v'⟩ := p
      by_cases h : k' = k <;> simp [jsMapSet, jsMapGet, h, ih]

/-- C7 (amended): the error `processMessage` surfaces after any failure
carries the stable code `CHAT_ERROR` and status `500`, but its human-readable
message is `'Failed to process message: '` concatenated with the caught
error's own detail — the raw internal detail is embedded in the user-facing
message (besides being logged), so two runs that differ only in the
provider's internal error detail yield different user-facing messages. -/
theorem chat_error_carries_internal_detail (e : JsError) :
    (processMessageCatch e).code = "CHAT_ERROR" ∧
    (processMessageCatch e).status = 500 ∧
    (processMessageCatch e).message =
      "Failed to process message: " ++ jsErrorMessage e :=
  ⟨rfl, rfl, rfl⟩

/-- Counterexample to C7 as stated: two caught errors that differ only in
their internal detail are wrapped into observably different user-facing
errors — the surfaced message is not generic. -/
theorem chat_error_leaks_counterexample :
    (processMessageCatch
        (JsError.error "connect ECONNREFUSED api.anthropic.com")).message ≠
      (processMessageCatch (JsError.error "401 invalid x-api-key")).message ∧
    processMessageCatch
        (JsError.error "connect ECONNREFUSED api.anthropic.com") ≠
      processMessageCatch (JsError.error "401 invalid x-api-key") := by
  constructor <;> decide

/-- C8 (amended): a call with an empty `userId` or an empty `message` makes
the validation inside `updateContext`'s `try` block throw
`INVALID_CONTEXT_UPDATE`, but the surrounding `catch` replaces it, so the
error the caller observes is `CONTEXT_UPDATE_ERROR` (code
`'CONTEXT_UPDATE_ERROR'`, message `'Failed to update conversation context'`)
— not one identifying the validation failure — and the stored context of
every userId is left unchanged by the failed call. -/
theorem updateContext_validation_rewrapped :
    (∀ (contexts : List (String × Ctx)) (message : String)
        (response : ChatResponse) (now : Nat) (w : Except String Unit),
        updateContextBody contexts "" message response now w =
          Except.error INVALID_CONTEXT_UPDATE ∧
        updateContext contexts "" message response now w =
          (Except.error CONTEXT_UPDATE_ERROR, contexts)) ∧
    (∀ (contexts : List (String × Ctx)) (userId : String)
        (response : ChatResponse) (now : Nat) (w : Except String Unit),
        updateContextBody contexts userId "" response now w =
          Except.error INVALID_CONTEXT_UPDATE ∧
        updateContext contexts userId "" response now w =
          (Except.error CONTEXT_UPDATE_ERROR, contexts)) := by
  constructor <;> intro contexts x response now w <;>
    exact ⟨by simp [updateContextBody], by simp [updateContext, updateContextBody]⟩

/-- Counterexample to C8 as stated: at the concrete inputs of the spec's
validation test the caller-observed error is `CONTEXT_UPDATE_ERROR`, which
differs from `INVALID_CONTEXT_UPDATE` (the validation error never escapes the
`catch`). -/
theorem updateContext_validation_counterexample :
    (updateContext [] "" "hello" sampleResponse 1000 (Except.ok ())).1 =
      Except.error CONTEXT_UPDATE_ERROR ∧
    (updateContext [] "u1" "" sampleResponse 1000 (Except.ok ())).1 =
      Except.error CONTEXT_UPDATE_ERROR ∧
    CONTEXT_UPDATE_ERROR.code ≠ "INVALID_CONTEXT_UPDATE" ∧
    CONTEXT_UPDATE_ERROR ≠ INVALID_CONTEXT_UPDATE := by
  refine ⟨by decide, by decide, by decide, by decide⟩

/-- C10: on the lightweight context path a failing durable write changes
nothing: `persistContext` never throws whatever the write outcome,
`updateContext` completes successfully and produces the same store for a
failing write as for a successful one, and the in-memory update — the two
appended history messages, `lastMessage`, `lastResponse`, `timestamp` and the
incremented interaction counter — is retained. -/
theorem persistence_failure_swallowed :
    ∀ (contexts : List (String × Ctx)) (userId message : String)
      (response : ChatResponse) (now : Nat) (w1 w2 : Except String Unit),
      userId ≠ "" → message ≠ "" →
      (∀ w, persistContext w = Except.ok ()) ∧
      updateContext contexts userId message response now w1 =
        updateContext contexts userId message response now w2 ∧
      (updateContext contexts userId message response now w1).1 =
        Except.ok () ∧
      historyOf (updateContext contexts userId message response now w1).2
          userId =
        (historyOf contexts userId).drop
            ((historyOf contexts userId).length - maxHistoryLength) ++
          [{ role := "user", content := message, timestamp := now,
             metadata := none },
           { role := "assistant", content := response.content,
             timestamp := now,
             metadata :=
               some ⟨response.confidence, response.source, 0⟩ }] ∧
      interactionsOf
          (updateContext contexts userId message response now w1).2 userId =
        interactionsOf contexts userId + 1 ∧
      (jsMapGet (updateContext contexts userId message response now w1).2
          userId).map Ctx.lastMessage = some message ∧
      (jsMapGet (updateContext contexts userId message response now w1).2
          userId).map Ctx.lastResponse = some response ∧
      (jsMapGet (updateContext contexts userId message response now w1).2
          userId).map Ctx.timestamp = some now := by
  intro contexts userId message response now w1 w2 hu hm
  have hcond : ¬(userId = "" ∨ message = "") := by tauto
  cases hget : jsMapGet contexts userId with
  | none =>
      refine ⟨fun w => rfl, ?_, ?_, ?_, ?_, ?_, ?_, ?_⟩ <;>
        simp [updateContext, updateContextBody, persistContext, hcond, hget,
          historyOf, interactionsOf, jsMapGet_jsMapSet_self]
  | some c =>
      refine ⟨fun w => rfl, ?_, ?_, ?_, ?_, ?_, ?_, ?_⟩ <;>
        simp [updateContext, updateContextBody, persistContext, hcond, hget,
          historyOf, interactionsOf, jsMapGet_jsMapSet_self]

/-- Witness for `persistence_failure_swallowed`: a concrete update whose
durable write fails equals the same update with a successful write, and still
reports success. -/
theorem persistence_failure_swallowed_witness :
    ("u1" : String) ≠ "" ∧ ("hello" : String) ≠ "" ∧
    updateContext [] "u1" "hello" sampleResponse 1000
        (Except.error "firestore write failed") =
      updateContext [] "u1" "hello" sampleResponse 1000 (Except.ok ()) ∧
    (updateContext [] "u1" "hello" sampleResponse 1000
        (Except.error "firestore write failed")).1 = Except.ok () := by
  refine ⟨by decide, by decide, ?_, ?_⟩
  · exact (persistence_failure_swallowed [] "u1" "hello" sampleResponse 1000
      (Except.error "firestore write failed") (Except.ok ())
      (by decide) (by decide)).2.1
  · exact (persistence_failure_swallowed [] "u1" "hello" sampleResponse 1000
      (Except.error "firestore write failed") (Except.ok ())
      (by decide) (by decide)).2.2.1

/-! Helper lemmas evaluating the router at the claims' concrete inputs. -/

lemma calculateTechnicalScore_hello : calculateTechnicalScore "hello" = 0 := by
  have h1 : technicalWordCount "hello" = 0 := by decide
  have h2 : wordCount "hello" = 1 := by decide
  rw [calculateTechnicalScore, h1, h2]
  norm_num

lemma evaluateContextComplexity_empty_le :
    evaluateContextComplexity (jobj []) ≤ 4/5 := by
  have hlen : jsStringLength (jobj []) = 2 := by decide
  rw [evaluateContextComplexity, hlen]
  calc min ((2 : ℚ)/1000) 1 ≤ (2 : ℚ)/1000 := min_le_left _ _
    _ ≤ 4/5 := by norm_num

lemma determineAIModel_hello : determineAIModel "hello" (jobj []) = "gpt4" := by
  rw [determineAIModel, if_neg]
  rintro (h | h)
  · rw [calculateTechnicalScore_hello] at h
    norm_num at h
  · exact absurd h (not_lt.mpr evaluateContextComplexity_empty_le)

/-- The spec's high-technical-density example message. -/
lemma calculateTechnicalScore_w2 :
    calculateTechnicalScore "Calculate my tax deductions for my W2 form" =
      1/2 := by
  have h1 : technicalWordCount
      "Calculate my tax deductions for my W2 form" = 4 := by decide
  have h2 : wordCount "Calculate my tax deductions for my W2 form" = 8 := by
    decide
  rw [calculateTechnicalScore, h1, h2]
  norm_num

lemma determineAIModel_w2 :
    determineAIModel "Calculate my tax deductions for my W2 form" (jobj []) =
      "gpt4" := by
  rw [determineAIModel, if_neg]
  rintro (h | h)
  · rw [calculateTechnicalScore_w2] at h
    norm_num at h
  · exact absurd h (not_lt.mpr evaluateContextComplexity_empty_le)

lemma calculateTechnicalScore_hi_there :
    calculateTechnicalScore "hi there" = 0 := by
  have h1 : technicalWordCount "hi there" = 0 := by decide
  have h2 : wordCount "hi there" = 2 := by decide
  rw [calculateTechnicalScore, h1, h2]
  norm_num

lemma determineAIModel_hi_there :
    determineAIModel "hi there" (jobj []) = "gpt4" := by
  rw [determineAIModel, if_neg]
  rintro (h | h)
  · rw [calculateTechnicalScore_hi_there] at h
    norm_num at h
  · exact absurd h (not_lt.mpr evaluateContextComplexity_empty_le)

/-- C4 (amended): the router returns `"claude"` exactly when
`technicalScore > 0.7` or `contextComplexity > 0.8` (with `technicalScore` the
matched-keyword count over the word count and `contextComplexity` the
serialized length over 1000 capped at 1) and `"gpt4"` otherwise; however the
message `"Calculate my tax deductions for my W2 form"` has technical score
`4/8 = 1/2 ≤ 0.7` (it matches `tax`, `w2`, `deduction`, `form` among its 8
words), so with the empty default context it routes to `"gpt4"`, and
`"hi there"` routes to `"gpt4"`. -/
theorem determineAIModel_rule :
    (∀ message contextString,
        (determineAIModel message contextString = "claude" ↔
          ((technicalWordCount message : ℚ) / (wordCount message : ℚ) > 7/10 ∨
            min ((jsStringLength contextString : ℚ) / 1000) 1 > 4/5)) ∧
        (determineAIModel message contextString = "claude" ∨
          determineAIModel message contextString = "gpt4")) ∧
    calculateTechnicalScore "Calculate my tax deductions for my W2 form" =
      1/2 ∧
    determineAIModel "Calculate my tax deductions for my W2 form"
      (jsonOfContext none) = "gpt4" ∧
    determineAIModel "hi there" (jsonOfContext none) = "gpt4" := by
  refine ⟨?_, calculateTechnicalScore_w2, determineAIModel_w2,
    determineAIModel_hi_there⟩
  intro message contextString
  constructor
  · show determineAIModel message contextString = "claude" ↔
      (calculateTechnicalScore message > 7/10 ∨
        evaluateContextComplexity contextString > 4/5)
    rw [determineAIModel]
    by_cases h : calculateTechnicalScore message > 7/10 ∨
        evaluateContextComplexity contextString > 4/5
    · simp only [if_pos h]
      exact ⟨fun _ => h, fun _ => trivial⟩
    · simp only [if_neg h]
      exact ⟨fun hc => absurd hc (by decide), fun hp => absurd hp h⟩
  · rw [determineAIModel]
    by_cases h : calculateTechnicalScore message > 7/10 ∨
        evaluateContextComplexity contextString > 4/5
    · simp only [if_pos h]
      exact Or.inl trivial
    · simp only [if_neg h]
      exact Or.inr trivial

/-- Counterexample to C4 as stated: the spec's high-density example message
routes to `"gpt4"`, not `"claude"`, under the empty default context. -/
theorem determineAIModel_w2_counterexample :
    determineAIModel "Calculate my tax deductions for my W2 form"
        (jsonOfContext none) = "gpt4" ∧
    determineAIModel "Calculate my tax deductions for my W2 form"
        (jsonOfContext none) ≠ "claude" := by
  refine ⟨determineAIModel_w2, ?_⟩
  rw [show jsonOfContext none = jobj [] from rfl, determineAIModel_w2]
  decide

/-- C1: a `processMessage` call made while the rate limiter denies the
request.  `checkLimit` returns `false`, but the orchestrator discards the
boolean (`await this.rateLimiter.checkLimit(userId);`), so the call proceeds
anyway: the context is resolved, the model router runs, one provider call is
started, and the call fails only later — with the `CHAT_ERROR` wrapping of
the `Timeout.wrap` `TypeError`, not with any rate-limit error.  (No waiting
happens either; nothing in the path consults the window.) -/
theorem rate_limit_denial_ignored :
    (RateLimiter.checkLimit chatOptions deniedLimiter 1000000).1 = false ∧
    (processMessage chatOptions (freshService deniedLimiter) 1000000 "u1"
        "hello").limitAllowed = false ∧
    (processMessage chatOptions (freshService deniedLimiter) 1000000 "u1"
        "hello").contextResolved = true ∧
    (processMessage chatOptions (freshService deniedLimiter) 1000000 "u1"
        "hello").routedModel = some "gpt4" ∧
    (processMessage chatOptions (freshService deniedLimiter) 1000000 "u1"
        "hello").providerInvocations = 1 ∧
    (processMessage chatOptions (freshService deniedLimiter) 1000000 "u1"
        "hello").outcome = Except.error timeoutWrapTypeError ∧
    timeoutWrapTypeError.code = "CHAT_ERROR" ∧
    timeoutWrapTypeError.message =
      "Failed to process message: Timeout.wrap is not a function" := by
  refine ⟨by decide, by decide, by decide, ?_, by decide, by decide,
    by decide, by decide⟩
  have h : (processMessage chatOptions (freshService deniedLimiter) 1000000
      "u1" "hello").routedModel =
      some (determineAIModel "hello" (jsonOfContext (getContext [] "u1"))) :=
    rfl
  rw [h]
  exact congrArg some determineAIModel_hello

/-- C2: the repository's `Timeout` class has no `wrap` member, so no timeout
is ever enforced and no timeout-specific failure can ever be surfaced: every
`processMessage` error outcome is the one fixed generic `CHAT_ERROR`
(wrapping `TypeError: Timeout.wrap is not a function`), and the context map
is never updated by any `processMessage` call.  The concrete conjunct
evaluates a fresh non-cached call. -/
theorem timeout_wrap_missing :
    (∀ opts st now userId message,
        (processMessage opts st now userId message).contexts = st.contexts) ∧
    (∀ opts st now userId message e,
        (processMessage opts st now userId message).outcome =
          Except.error e → e = timeoutWrapTypeError) ∧
    (processMessage chatOptions (freshService ⟨0, 0⟩) 0 "u1" "hello").outcome
      = Except.error timeoutWrapTypeError ∧
    timeoutWrapTypeError.code = "CHAT_ERROR" := by
  refine ⟨?_, ?_, by decide, by decide⟩
  · intro opts st now userId message
    simp only [processMessage]
    split <;> rfl
  · intro opts st now userId message e h
    simp only [processMessage] at h
    split at h
    · simp at h
    · simp at h
      exact h.symm

/-- Witness for `timeout_wrap_missing`: the error hypothesis is satisfied at
a concrete fresh call, whose outcome is exactly the generic error. -/
theorem timeout_wrap_missing_witness :
    (processMessage chatOptions (freshService ⟨0, 0⟩) 0 "u1" "hello").outcome
      = Except.error timeoutWrapTypeError ∧
    timeoutWrapTypeError = timeoutWrapTypeError := by
  refine ⟨by decide, ?_⟩
  exact timeout_wrap_missing.2.1 chatOptions (freshService ⟨0, 0⟩) 0 "u1"
    "hello" timeoutWrapTypeError (by decide)

/-! Claim C3: the sliding window of `updateContext`. -/

lemma updateContext_history_length :
    ∀ (contexts : List (String × Ctx)) (userId message : String)
      (response : ChatResponse) (now : Nat) (w : Except String Unit),
      userId ≠ "" → message ≠ "" →
      (historyOf (updateContext contexts userId message response now w).2
          userId).length =
        min (historyOf contexts userId).length maxHistoryLength + 2 := by
  intro contexts userId message response now w hu hm
  have hcond : ¬(userId = "" ∨ message = "") := by tauto
  cases hget : jsMapGet contexts userId with
  | none =>
      simp [updateContext, updateContextBody, persistContext, hcond, hget,
        historyOf, jsMapGet_jsMapSet_self]
  | some c =>
      simp only [updateContext, updateContextBody, persistContext, hcond,
        if_false, hget, historyOf, jsMapGet_jsMapSet_self]
      simp [List.length_append, List.length_drop]
      omega

set_option maxRecDepth 4096 in
/-- C3 (amended): each successful `updateContext` truncates only the *prior*
history to the 50 most recent entries and then appends 2 more, so the stored
history length is `min (previous length) 50 + 2` — it reaches and stays at
52, not 50.  After appending 60 message-pairs to an empty context the history
has 52 entries, and the oldest surviving message is the user message of the
35th pair — the 69th appended message (pair `k` was appended at time `k`, so
it carries timestamp 35). -/
theorem history_cap_52 :
    (∀ (contexts : List (String × Ctx)) (userId message : String)
        (response : ChatResponse) (now : Nat) (w : Except String Unit),
        userId ≠ "" → message ≠ "" →
        (historyOf (updateContext contexts userId message response now w).2
            userId).length =
          min (historyOf contexts userId).length maxHistoryLength + 2) ∧
    (∀ (contexts : List (String × Ctx)) (userId message : String)
        (response : ChatResponse) (now : Nat) (w : Except String Unit),
        userId ≠ "" → message ≠ "" →
        (historyOf contexts userId).length ≤ 52 →
        (historyOf (updateContext contexts userId message response now w).2
            userId).length ≤ 52) ∧
    (historyOf (appendPairs 60) "u1").length = 52 ∧
    (historyOf (appendPairs 60) "u1").head? =
      some ⟨"user", "hi", 35, none⟩ := by
  refine ⟨updateContext_history_length, ?_, by decide, by decide⟩
  intro contexts userId message response now w hu hm hle
  rw [updateContext_history_length contexts userId message response now w hu
    hm]
  have : min (historyOf contexts userId).length maxHistoryLength ≤ 50 := by
    simp [maxHistoryLength]
  omega

/-- Witness for `history_cap_52`: a concrete first update appends two
messages to the empty history. -/
theorem history_cap_52_witness :
    ("u1" : String) ≠ "" ∧ ("x" : String) ≠ "" ∧
    (historyOf (updateContext [] "u1" "x" sampleResponse 7
        (Except.ok ())).2 "u1").length =
      min (historyOf [] "u1").length maxHistoryLength + 2 := by
  refine ⟨by decide, by decide, ?_⟩
  exact history_cap_52.1 [] "u1" "x" sampleResponse 7 (Except.ok ())
    (by decide) (by decide)

set_option maxRecDepth 4096 in
/-- Counterexample to C3 as stated: after appending 60 message-pairs the
stored history has 52 entries, not 50 (the code slices the previous history
to 50 entries *before* appending two more). -/
theorem history_cap_counterexample :
    (historyOf (appendPairs 60) "u1").length = 52 ∧
    (historyOf (appendPairs 60) "u1").length ≠ 50 := by
  constructor <;> decide

/-! Claim C9: oldest-first eviction of the cache. -/

lemma jsMapGet_append_left_none {K V : Type} [DecidableEq K]
    (l1 l2 : List (K × V)) (k : K) (h : jsMapGet l1 k = none) :
    jsMapGet (l1 ++ l2) k = jsMapGet l2 k := by
  induction l1 with
  | nil => simp
  | cons p t ih =>
      obtain ⟨k', v'⟩ := p
      by_cases hk : k' = k
      · simp [jsMapGet, hk] at h
      · simp only [jsMapGet, if_neg hk] at h
        simp only [List.cons_append, jsMapGet, if_neg hk]
        exact ih h

lemma jsMapSet_append_of_none {K V : Type} [DecidableEq K]
    (l : List (K × V)) (k : K) (v : V) (h : jsMapGet l k = none) :
    jsMapSet l k v = l ++ [(k, v)] := by
  induction l with
  | nil => simp [jsMapSet]
  | cons p t ih =>
      obtain ⟨k', v'⟩ := p
      by_cases hk : k' = k
      · simp [jsMapGet, hk] at h
      · simp only [jsMapGet, if_neg hk] at h
        simp [jsMapSet, hk, ih h]

lemma jsMapGet_map_none {K V : Type} [DecidableEq K]
    (ks : List K) (f : K → V) (k : K) (h : k ∉ ks) :
    jsMapGet (ks.map (fun x => (x, f x))) k = none := by
  induction ks with
  | nil => simp [jsMapGet]
  | cons k' t ih =>
      have hne : k' ≠ k := fun he => h (by simp [he])
      have ht : k ∉ t := fun hm => h (by simp [hm])
      simp [jsMapGet, hne, ih ht]

lemma insertSeq_fills {K V : Type} [DecidableEq K] (v : V) (now : Nat) :
    ∀ (ks : List K) (c : Cache K V), ks.Nodup →
      (∀ k ∈ ks, jsMapGet c.entries k = none) →
      c.entries.length + ks.length ≤ c.maxSize →
      Cache.insertSeq c ks v now =
        { entries := c.entries ++ ks.map (fun k => (k, ⟨v, now⟩)),
          maxSize := c.maxSize, ttl := c.ttl } := by
  intro ks
  induction ks with
  | nil =>
      intro c _ _ _
      obtain ⟨ce, cm, ct⟩ := c
      simp [Cache.insertSeq]
  | cons k ks ih =>
      intro c hnodup hfresh hlen
      obtain ⟨ce, cm, ct⟩ := c
      simp only [List.length_cons] at hlen
      have hklt : ¬(ce.length ≥ cm) := by
        omega
      have hset : Cache.set (⟨ce, cm, ct⟩ : Cache K V) k v now =
          ⟨ce ++ [(k, ⟨v, now⟩)], cm, ct⟩ := by
        simp only [Cache.set, hklt, if_false]
        rw [jsMapSet_append_of_none ce k ⟨v, now⟩ (hfresh k (by simp))]
      have hstep : Cache.insertSeq (⟨ce, cm, ct⟩ : Cache K V) (k :: ks) v
          now = Cache.insertSeq (⟨ce ++ [(k, ⟨v, now⟩)], cm, ct⟩ : Cache K V)
            ks v now := by
        simp only [Cache.insertSeq, List.foldl_cons]
        rw [show (Cache.set (⟨ce, cm, ct⟩ : Cache K V) k v now) =
          (⟨ce ++ [(k, ⟨v, now⟩)], cm, ct⟩ : Cache K V) from hset]
      rw [hstep]
      have hnodup' : ks.Nodup := (List.nodup_cons.mp hnodup).2
      have hknotin : k ∉ ks := (List.nodup_cons.mp hnodup).1
      have hfresh' : ∀ k' ∈ ks,
          jsMapGet (ce ++ [(k, (⟨v, now⟩ : CacheEntry V))]) k' = none := by
        intro k' hk'
        rw [jsMapGet_append_left_none ce _ k' (hfresh k' (by simp [hk']))]
        have : k ≠ k' := fun he => hknotin (he ▸ hk')
        simp [jsMapGet, this]
      have hlen' : (ce ++ [(k, (⟨v, now⟩ : CacheEntry V))]).length +
          ks.length ≤ cm := by
        simp only [List.length_append, List.length_cons, List.length_nil]
        omega
      have hfinal := ih (⟨ce ++ [(k, (⟨v, now⟩ : CacheEntry V))], cm, ct⟩ :
        Cache K V) hnodup' hfresh' hlen'
      rw [hfinal]
      simp

/-- C9: when `size >= maxSize` (with at least one slot configured, so an
entry exists to evict), `set` removes exactly the structurally first —
oldest-inserted — entry before inserting; consequently inserting
`maxSize + 1` distinct keys into an empty cache leaves exactly `maxSize`
entries, the survivors being the last `maxSize` keys in insertion order, with
the first-inserted key no longer present. -/
theorem cache_oldest_eviction {K V : Type} [DecidableEq K] :
    (∀ (c : Cache K V) (k : K) (v : V) (now : Nat),
        c.entries.length ≥ c.maxSize → 1 ≤ c.maxSize →
        ∃ k0 e0 t, c.entries = (k0, e0) :: t ∧
          (Cache.set c k v now).entries = jsMapSet t k ⟨v, now⟩) ∧
    (∀ (maxSize ttl : Nat) (v : V) (now : Nat) (ks : List K),
        ks.Nodup → ks.length = maxSize + 1 → 1 ≤ maxSize →
        (Cache.insertSeq (Cache.empty maxSize ttl) ks v now).entries =
          (ks.drop 1).map (fun k => (k, ⟨v, now⟩)) ∧
        (Cache.insertSeq (Cache.empty maxSize ttl) ks v now).entries.length =
          maxSize ∧
        ∀ k0, ks.head? = some k0 →
          jsMapGet
            (Cache.insertSeq (Cache.empty maxSize ttl) ks v now).entries k0 =
            none) := by
  constructor
  · intro c k v now hge hmax
    obtain ⟨entries, cm, ct⟩ := c
    simp only at hge hmax
    cases entries with
    | nil =>
        exfalso
        simp only [List.length_nil] at hge
        omega
    | cons p t =>
        obtain ⟨k0, e0⟩ := p
        refine ⟨k0, e0, t, rfl, ?_⟩
        simp only [Cache.set]
        rw [if_pos hge]
        simp [jsMapDelete]
  · intro maxSize ttl v now ks hnodup hlen hmax
    rcases ks.eq_nil_or_concat with rfl | ⟨L, b, rfl⟩
    · simp at hlen
    · simp only [List.concat_eq_append] at hnodup hlen ⊢
      have hL : L.length = maxSize := by
        simp only [List.length_append, List.length_cons, List.length_nil]
          at hlen
        omega
      have hsplit := List.nodup_append.mp hnodup
      have hLnodup : L.Nodup := hsplit.1
      have hbnotinL : b ∉ L := by
        intro hb
        exact (hsplit.2.2 hb (by simp))
      have hfill := insertSeq_fills v now L (Cache.empty maxSize ttl)
        hLnodup (fun k _ => rfl) (by simp [Cache.empty]; omega)
      have hfill' : Cache.insertSeq (Cache.empty maxSize ttl) L v now =
          (⟨L.map (fun k => (k, ⟨v, now⟩)), maxSize, ttl⟩ : Cache K V) := by
        rw [hfill]
        simp [Cache.empty]
      have hfold : Cache.insertSeq (Cache.empty maxSize ttl) (L ++ [b]) v
          now = Cache.set (Cache.insertSeq (Cache.empty maxSize ttl) L v now)
            b v now := by
        simp [Cache.insertSeq, List.foldl_append]
      cases L with
      | nil => simp at hL; omega
      | cons k0 Lt =>
          have hk0notLt : k0 ∉ Lt := (List.nodup_cons.mp hLnodup).1
          have hLtnodup : Lt.Nodup := (List.nodup_cons.mp hLnodup).2
          have hbk0 : b ≠ k0 := by
            intro he
            exact hbnotinL (by simp [he])
          have hbnotLt : b ∉ Lt := fun hb => hbnotinL (by simp [hb])
          simp only [List.length_cons] at hL
          have hentries :
              (Cache.insertSeq (Cache.empty maxSize ttl) ((k0 :: Lt) ++ [b])
                v now).entries =
              ((Lt ++ [b]).map (fun k => (k, (⟨v, now⟩ : CacheEntry V)))) := by
            rw [hfold, hfill']
            have hge : ((k0, (⟨v, now⟩ : CacheEntry V)) ::
                Lt.map (fun k => (k, (⟨v, now⟩ : CacheEntry V)))).length ≥
                maxSize := by
              simp only [List.length_cons, List.length_map]
              omega
            simp only [Cache.set, List.map_cons]
            rw [if_pos hge]
            simp only [jsMapDelete, if_pos rfl]
            simp only [eq_self_iff_true, if_true]
            rw [jsMapSet_append_of_none
              (Lt.map (fun x => (x, (⟨v, now⟩ : CacheEntry V)))) b
              (⟨v, now⟩ : CacheEntry V)
              (jsMapGet_map_none Lt (fun _ => (⟨v, now⟩ : CacheEntry V)) b
                hbnotLt)]
            simp
          refine ⟨by simpa using hentries, ?_, ?_⟩
          · rw [hentries]
            simp only [List.length_map, List.length_append,
              List.length_cons, List.length_nil]
            omega
          · intro kh hkh
            have hkh0 : kh = k0 := by
              simp at hkh
              exact hkh.symm
            subst hkh0
            rw [hentries]
            refine jsMapGet_map_none _ _ _ ?_
            intro hmem
            rcases List.mem_append.mp hmem with hm | hm
            · exact hk0notLt hm
            · simp at hm
              exact hbk0 hm.symm

/-- Witness for `cache_oldest_eviction`: with `maxSize = 2`, inserting the
three distinct keys `a`, `b`, `c` into an empty cache leaves exactly two
entries with `a` evicted; and a full one-slot cache holding `x` evicts that
structurally-first entry on `set`. -/
theorem cache_oldest_eviction_witness :
    ((["a", "b", "c"] : List String).Nodup ∧
      (Cache.insertSeq (Cache.empty 2 1000) ["a", "b", "c"] (0 : Nat)
        5).entries.length = 2 ∧
      jsMapGet (Cache.insertSeq (Cache.empty 2 1000) ["a", "b", "c"]
        (0 : Nat) 5).entries "a" = none) ∧
    ∃ k0 e0 t,
      (⟨[("x", ⟨1, 2⟩)], 1, 1000⟩ : Cache String Nat).entries =
        (k0, e0) :: t ∧
      (Cache.set (⟨[("x", ⟨1, 2⟩)], 1, 1000⟩ : Cache String Nat) "y" 3
        4).entries = jsMapSet t "y" ⟨3, 4⟩ := by
  have h2 := (cache_oldest_eviction (K := String) (V := Nat)).2 2 1000 0 5
    ["a", "b", "c"] (by decide) (by decide) (by decide)
  have h1 := (cache_oldest_eviction (K := String) (V := Nat)).1
    ⟨[("x", ⟨1, 2⟩)], 1, 1000⟩ "y" 3 4 (by decide) (by decide)
  exact ⟨⟨by decide, h2.2.1, h2.2.2 "a" rfl⟩, h1⟩

/-- Counterexample to C9 as stated, at the degenerate capacity `maxSize = 0`:
the empty cache already has `size >= maxSize`, yet `set` evicts nothing
(`keys().next().value` is `undefined` and the delete is a no-op) and still
inserts, so inserting `maxSize + 1 = 1` distinct key leaves 1 entry, not
`maxSize = 0`. -/
theorem cache_eviction_zero_capacity_counterexample :
    (Cache.empty (K := String) (V := Nat) 0 1000).entries.length ≥
      (Cache.empty (K := String) (V := Nat) 0 1000).maxSize ∧
    (Cache.set (Cache.empty (K := String) (V := Nat) 0 1000) "a" 0
      5).entries.length = 1 ∧
    ¬((Cache.set (Cache.empty (K := String) (V := Nat) 0 1000) "a" 0
      5).entries.length =
        (Cache.empty (K := String) (V := Nat) 0 1000).maxSize) := by
  refine ⟨by decide, by decide, by decide⟩
